import Mathlib

/-!
Verification of the go-search-logger coalescing/debounce engine
(`internal/searchlogger/search_logger.go`) against its specification.

The Go code is shallowly embedded: Redis is a key-value store
`String → Option String`, the SQL database a list of inserted rows, and
each fallible external call (Redis get/set/del, DB transaction) is driven
by an explicit failure plan so that every error path of the source is
representable.  The SHA-256 hex digest used by `generateAnonID` is an
external library primitive and is taken as a function parameter
`sha256hex : String → String`.
-/

namespace SearchLogger

/-- Model of Go `strings.TrimSpace`: drop whitespace from both ends of the
string (character-level model; `Char.isWhitespace` covers the ASCII space
classes relevant here). -/
def goTrimSpace (s : String) : String :=
  ⟨((s.data.dropWhile Char.isWhitespace).reverse.dropWhile Char.isWhitespace).reverse⟩

/-- Model of Go `strings.ToLower`: lowercase each character. -/
def goToLower (s : String) : String :=
  ⟨s.data.map Char.toLower⟩

/-- Model of Go `strings.HasPrefix(s, pre)`: `pre` is a prefix of `s`.
Argument order matches the Go function. -/
def goHasPrefix (s pre : String) : Bool :=
  pre.data.isPrefixOf s.data

/-- Model of Go `strings.TrimPrefix(s, pre)`: `s` without the leading `pre`,
or `s` unchanged when `pre` is not a prefix. -/
def goTrimPrefix (s pre : String) : String :=
  if goHasPrefix s pre then ⟨s.data.drop pre.data.length⟩ else s

/-- `SearchEntry` from the source: a search to be logged. -/
structure SearchEntry where
  UserID : String
  Query : String
  AnonID : String
deriving DecidableEq, Repr

/-- The external world the logger mutates: the Redis cache (key-value store
with absent keys as `none`) and the SQL table `user_searches` as the list of
inserted rows, in insertion order. -/
structure State where
  cache : String → Option String
  db : List SearchEntry

/-- The empty world: no cache keys, no rows. -/
def State.empty : State := ⟨fun _ => none, []⟩

/-- Set a Redis key (successful `Redis.Set`). -/
def setKey (k v : String) (s : State) : State :=
  { s with cache := fun k2 => if k2 = k then some v else s.cache k2 }

/-- Delete a Redis key (successful `Redis.Del`). -/
def delKey (k : String) (s : State) : State :=
  { s with cache := fun k2 => if k2 = k then none else s.cache k2 }

/-- Failure injection for one `LogSearch` call: whether the head `Get`, the
DB transaction, the head `Set` and the buffer `Set` fail. -/
structure FailurePlan where
  getFails : Bool
  dbFails : Bool
  setHeadFails : Bool
  setBufFails : Bool
deriving DecidableEq, Repr

/-- The all-succeed failure plan. -/
def noFail : FailurePlan := ⟨false, false, false, false⟩

/-- Failure injection for the listener's processing of one expired-key
notification: the buffer `Get`, the DB transaction and the buffer `Del`. -/
structure ListenerPlan where
  getFails : Bool
  dbFails : Bool
  delFails : Bool
deriving DecidableEq, Repr

/-- The all-succeed listener plan. -/
def lpNoFail : ListenerPlan := ⟨false, false, false⟩

/-- `normalizeQuery` from the source: lowercases and trims the input. -/
def normalizeQuery (query : String) : String :=
  goToLower (goTrimSpace query)

/-- `buildRedisKey` from the source: key for the last (head) search. -/
def buildRedisKey (userID : String) : String :=
  "search:last:" ++ userID

/-- `generateAnonID` from the source: `"anon" + hex(SHA-256(userAgent))`,
with the digest primitive abstracted as `sha256hex`. -/
def generateAnonID (sha256hex : String → String) (userAgent : String) : String :=
  "anon" ++ sha256hex userAgent

/-- `writeSearch` from the source: empty query is a successful no-op;
otherwise one row is inserted inside a transaction, so on failure nothing
is visible and on success exactly the one row is appended. -/
def writeSearch (dbFails : Bool) (s : State) (entry : SearchEntry) :
    Except Unit State :=
  if entry.Query = "" then .ok s
  else if dbFails then .error ()
  else .ok { s with db := s.db ++ [entry] }

/-- The reset test of `LogSearch` (source lines 69-70): the previous head is
non-empty and neither direction of the prefix comparison holds. -/
def resetCond (lastQuery normalizedQuery : String) : Bool :=
  lastQuery != "" &&
    !(goHasPrefix normalizedQuery lastQuery) && !(goHasPrefix lastQuery normalizedQuery)

/-- Result of a `LogSearch` call: success, the propagated DB-write error of
the reset flush, or the aggregated Redis `Set` error. -/
inductive LogResult where
  | ok : LogResult
  | dbErr : LogResult
  | cacheErr : LogResult
deriving DecidableEq, Repr

/-- `LogSearch` from the source, as a state transformer.  A failed head
`Get` is modelled exactly as the source treats it: the error return of
`Result()` is discarded, leaving the empty string (a Redis miss also
surfaces as an error there, hence also yields `""`).  A failed `Set`
leaves its key untouched but the companion `Set` still runs; an error is
then returned with the partial mutation kept, as in the source. -/
def LogSearch (sha256hex : String → String) (fp : FailurePlan)
    (userID userAgent query : String) (s : State) : State × LogResult :=
  let normalizedQuery := normalizeQuery query
  if normalizedQuery = "" then (s, .ok)
  else
    let isAnon := goTrimSpace userID = ""
    let anonID := if isAnon then generateAnonID sha256hex userAgent else ""
    let idForRedis := if isAnon then anonID else userID
    let redisKey := buildRedisKey idForRedis
    let bufferKey := "search:buffer:" ++ idForRedis
    let lastQuery := if fp.getFails then "" else (s.cache redisKey).getD ""
    let resetDetected := resetCond lastQuery normalizedQuery
    let afterFlush : Except Unit State :=
      if resetDetected then
        writeSearch fp.dbFails s { UserID := userID, Query := lastQuery, AnonID := anonID }
      else .ok s
    match afterFlush with
    | .error _ => (s, .dbErr)
    | .ok s1 =>
      let s2 := if fp.setHeadFails then s1 else setKey redisKey normalizedQuery s1
      let s3 := if fp.setBufFails then s2 else setKey bufferKey normalizedQuery s2
      if fp.setHeadFails || fp.setBufFails then (s3, .cacheErr) else (s3, .ok)

/-- The body of `StartKeyspaceListener`'s message case: processing of one
expired-key notification payload.  A Redis miss of the buffer key surfaces
as a `Get` error in the source (`redis.Nil`) and is merged with a failed
`Get` into the `none` branch; the `Del` error is discarded by the source,
so a failed `Del` just leaves the key in place. -/
def handleExpiredKey (lp : ListenerPlan) (expiredKey : String) (s : State) : State :=
  if !(goHasPrefix expiredKey "search:last:") then s
  else
    let userID := goTrimPrefix expiredKey "search:last:"
    let bufferKey := "search:buffer:" ++ userID
    match (if lp.getFails then none else s.cache bufferKey) with
    | none => s
    | some query =>
      let isAnon := goHasPrefix userID "anon"
      let entry : SearchEntry :=
        if isAnon then { UserID := "", Query := query, AnonID := userID }
        else { UserID := userID, Query := query, AnonID := "" }
      match writeSearch lp.dbFails s entry with
      | .error _ => s
      | .ok s1 => if lp.delFails then s1 else delKey bufferKey s1

/-- The identity `LogSearch` resolves and keys the cache with (lines 51-62
of the source, factored out): the anon ID when the trimmed userID is empty,
otherwise the raw userID verbatim. -/
def resolvedId (sha256hex : String → String) (userID userAgent : String) : String :=
  if goTrimSpace userID = "" then generateAnonID sha256hex userAgent else userID

/-- A sequence of failure-free `LogSearch` calls for one caller, threading
the state. -/
def runAll (sha256hex : String → String) (userID userAgent : String)
    (qs : List String) (s : State) : State :=
  qs.foldl (fun st q => (LogSearch sha256hex noFail userID userAgent q st).1) s

/-! ### Basic facts about the string helpers -/

lemma goHasPrefix_refl (s : String) : goHasPrefix s s = true := by
  simp [goHasPrefix]

lemma goHasPrefix_append (p t : String) : goHasPrefix (p ++ t) p = true := by
  simp [goHasPrefix]

lemma goTrimPrefix_append (p t : String) : goTrimPrefix (p ++ t) p = t := by
  have hd : (p ++ t).data.drop p.data.length = t.data := by
    rw [String.data_append]
    exact List.drop_left p.data t.data
  simp [goTrimPrefix, goHasPrefix_append, hd]

lemma resetCond_iff (hd n : String) :
    resetCond hd n = true ↔ hd ≠ "" ∧ goHasPrefix n hd = false ∧ goHasPrefix hd n = false := by
  simp [resetCond, Bool.and_eq_true, bne_iff_ne, Bool.not_eq_true']
  tauto

lemma resetCond_self_ne (hd n : String) (h : resetCond hd n = true) : hd ≠ n := by
  rcases (resetCond_iff hd n).mp h with ⟨-, -, h3⟩
  intro he
  rw [he, goHasPrefix_refl] at h3
  cases h3

/-- Left-cancellation of string append. -/
lemma string_append_cancel {p a b : String} (h : p ++ a = p ++ b) : a = b := by
  have h2 := congrArg String.data h
  simp only [String.data_append] at h2
  exact String.ext (List.append_cancel_left h2)

lemma buildRedisKey_inj {a b : String} (h : buildRedisKey a = buildRedisKey b) : a = b :=
  string_append_cancel h

lemma bufferKey_inj {a b : String} (h : "search:buffer:" ++ a = "search:buffer:" ++ b) : a = b :=
  string_append_cancel h

/-- The head namespace and the buffer namespace never collide, whatever the
identities: the two literal prefixes differ at character index 7. -/
lemma headKey_ne_bufferKey (a b : String) : buildRedisKey a ≠ "search:buffer:" ++ b := by
  intro h
  have h2 := congrArg (fun t => t.data[7]?) h
  simp only [buildRedisKey, String.data_append] at h2
  rw [List.getElem?_append_left (by decide), List.getElem?_append_left (by decide)] at h2
  revert h2
  decide

lemma goTrimSpace_empty : goTrimSpace "" = "" := rfl

/-- A string starting with the (non-whitespace) marker `anon` never trims to
the empty string. -/
lemma goTrimSpace_anon_append_ne (x : String) : goTrimSpace ("anon" ++ x) ≠ "" := by
  intro h
  have h2 := congrArg String.data h
  simp only [goTrimSpace, String.data_append] at h2
  have hx : ("anon".data ++ x.data).dropWhile Char.isWhitespace = 'a' :: ("non".data ++ x.data) := by
    simp [List.dropWhile]
  rw [hx] at h2
  have h3 : (('a' :: ("non".data ++ x.data)).reverse.dropWhile Char.isWhitespace).reverse = [] := h2
  rw [List.reverse_eq_nil_iff, List.dropWhile_eq_nil_iff] at h3
  have := h3 'a' (by simp)
  simp at this

/-- The identity `LogSearch` keys the cache with never trims to empty: an
authenticated identity is non-blank by the branch condition, an anonymous one
starts with the literal `anon`. -/
lemma goTrimSpace_resolvedId_ne (sha : String → String) (u ua : String) :
    goTrimSpace (resolvedId sha u ua) ≠ "" := by
  unfold resolvedId
  by_cases hA : goTrimSpace u = ""
  · simpa [hA, generateAnonID] using goTrimSpace_anon_append_ne (sha ua)
  · simp [hA]

lemma resolvedId_ne_empty (sha : String → String) (u ua : String) :
    resolvedId sha u ua ≠ "" := by
  intro h
  exact goTrimSpace_resolvedId_ne sha u ua (by rw [h, goTrimSpace_empty])

lemma generateAnonID_marker (sha : String → String) (ua : String) :
    goHasPrefix (generateAnonID sha ua) "anon" = true :=
  goHasPrefix_append "anon" (sha ua)

/-! ### Evaluation lemmas for the two code paths -/

/-- Complete case description of `LogSearch` on a non-empty normalized query,
for every failure plan: `(s, dbErr)` when a detected reset's flush fails,
otherwise the optional flush row followed by the two best-effort `Set`s, with
the aggregated cache error exactly when a `Set` failed. -/
lemma LogSearch_eq (sha : String → String) (fp : FailurePlan) (u ua q : String) (s : State)
    (hq : normalizeQuery q ≠ "") :
    LogSearch sha fp u ua q s =
      (let A := resolvedId sha u ua
       let n := normalizeQuery q
       let hd := if fp.getFails then "" else (s.cache (buildRedisKey A)).getD ""
       let anonFld := if goTrimSpace u = "" then generateAnonID sha ua else ""
       if resetCond hd n && fp.dbFails then (s, .dbErr)
       else
         let s0 := if resetCond hd n then { s with db := s.db ++ [⟨u, hd, anonFld⟩] } else s
         let s2 := if fp.setHeadFails then s0 else setKey (buildRedisKey A) n s0
         let s3 := if fp.setBufFails then s2 else setKey ("search:buffer:" ++ A) n s2
         (s3, if fp.setHeadFails || fp.setBufFails then .cacheErr else .ok)) := by
  obtain ⟨gf, df, shf, sbf⟩ := fp
  cases gf
  case true =>
    have hz : resetCond "" (normalizeQuery q) = false := by simp [resetCond]
    by_cases hA : goTrimSpace u = "" <;> cases df <;> cases shf <;> cases sbf <;>
      simp [LogSearch, resolvedId, hA, hq, hz, writeSearch]
  case false =>
    by_cases hA : goTrimSpace u = "" <;>
      by_cases hr : resetCond ((s.cache (buildRedisKey (resolvedId sha u ua))).getD "")
          (normalizeQuery q) = true <;>
      first
      | (have h1 := ((resetCond_iff _ _).mp hr).1
         have hr2 := hr
         have h2 := h1
         simp only [resolvedId, hA, if_true, if_false, ite_true, ite_false] at hr2 h2
         cases df <;> cases shf <;> cases sbf <;>
           simp [LogSearch, resolvedId, hA, hq, hr, hr2, writeSearch, h1, h2])
      | (rw [Bool.not_eq_true] at hr
         have hr2 := hr
         simp only [resolvedId, hA, if_true, if_false, ite_true, ite_false] at hr2
         cases df <;> cases shf <;> cases sbf <;>
           simp [LogSearch, resolvedId, hA, hq, hr, hr2, writeSearch])

/-- Complete case description of the listener's handling of one head-key
notification, for every listener failure plan. -/
lemma handleExpiredKey_eq (lp : ListenerPlan) (u : String) (s : State) :
    handleExpiredKey lp ("search:last:" ++ u) s =
      (match (if lp.getFails then none else s.cache ("search:buffer:" ++ u)) with
       | none => s
       | some query =>
         match writeSearch lp.dbFails s
             (if goHasPrefix u "anon" then ⟨"", query, u⟩ else ⟨u, query, ""⟩) with
         | .error _ => s
         | .ok s1 => if lp.delFails then s1 else delKey ("search:buffer:" ++ u) s1) := by
  have hp : goHasPrefix ("search:last:" ++ u) "search:last:" = true :=
    goHasPrefix_append "search:last:" u
  have ht : goTrimPrefix ("search:last:" ++ u) "search:last:" = u :=
    goTrimPrefix_append "search:last:" u
  by_cases hAn : goHasPrefix u "anon" = true <;>
    simp [handleExpiredKey, hp, ht, hAn]

/-! ### The claims -/

/-- C8: an input whose normalized form is empty makes `LogSearch` return
success without touching cache or database, and `writeSearch` with an empty
query succeeds without inserting a record, so records exist only for
non-empty normalized query text. -/
theorem C8_empty_query_noop (sha : String → String) (fp : FailurePlan)
    (u ua q : String) (s : State) (hq : normalizeQuery q = "")
    (e : SearchEntry) (he : e.Query = "") (df : Bool) :
    LogSearch sha fp u ua q s = (s, .ok) ∧ writeSearch df s e = .ok s := by
  constructor
  · simp [LogSearch, hq]
  · simp [writeSearch, he]

theorem C8_empty_query_noop_witness :
    normalizeQuery " \t " = "" ∧
    (SearchEntry.mk "bob" "" "").Query = "" ∧
    (LogSearch (fun _ => "d") noFail "bob" "ua" " \t " State.empty = (State.empty, .ok) ∧
     writeSearch false State.empty (SearchEntry.mk "bob" "" "") = .ok State.empty) :=
  ⟨by decide, by decide,
   C8_empty_query_noop (fun _ => "d") noFail "bob" "ua" " \t " State.empty (by decide)
     (SearchEntry.mk "bob" "" "") (by decide) false⟩

/-- C1: with a non-empty normalized query `n` and current head value `hd` for
the resolved identity, the failure-free `LogSearch` call succeeds, performs a
durable flush iff `hd` is non-empty and neither string is a prefix of the
other, flushes exactly the previous head `hd` (which then differs from `n`),
and leaves `n` as the new head value. -/
theorem C1_reset_flush_rule (sha : String → String) (u ua q : String) (s : State)
    (A hd n : String)
    (hA : A = resolvedId sha u ua)
    (hhd : hd = (s.cache (buildRedisKey A)).getD "")
    (hn : n = normalizeQuery q)
    (hq : n ≠ "") :
    (LogSearch sha noFail u ua q s).2 = .ok ∧
    ((LogSearch sha noFail u ua q s).1.db ≠ s.db ↔
      (hd ≠ "" ∧ goHasPrefix n hd = false ∧ goHasPrefix hd n = false)) ∧
    ((hd ≠ "" ∧ goHasPrefix n hd = false ∧ goHasPrefix hd n = false) →
      ((LogSearch sha noFail u ua q s).1.db =
        s.db ++ [⟨u, hd, if goTrimSpace u = "" then generateAnonID sha ua else ""⟩] ∧ hd ≠ n)) ∧
    (LogSearch sha noFail u ua q s).1.cache (buildRedisKey A) = some n := by
  subst hA hhd hn
  rw [LogSearch_eq sha noFail u ua q s hq]
  by_cases hr : resetCond ((s.cache (buildRedisKey (resolvedId sha u ua))).getD "")
      (normalizeQuery q) = true
  · have hcond := (resetCond_iff _ _).mp hr
    have hne := resetCond_self_ne _ _ hr
    simp [noFail, hr, setKey, headKey_ne_bufferKey _ (resolvedId sha u ua), hcond, hne]
  · rw [Bool.not_eq_true] at hr
    have hcond := (resetCond_iff ((s.cache (buildRedisKey (resolvedId sha u ua))).getD "")
      (normalizeQuery q)).not.mp (by simp [hr])
    simp [noFail, hr, setKey, headKey_ne_bufferKey _ (resolvedId sha u ua)]
    intro h1 h2
    cases hc : goHasPrefix ((s.cache (buildRedisKey (resolvedId sha u ua))).getD "")
      (normalizeQuery q)
    · exact absurd ⟨h1, h2, hc⟩ hcond
    · rfl

theorem C1_reset_flush_rule_witness :
    ("bob" : String) = resolvedId (fun _ => "d") "bob" "ua" ∧
    ("caterpillar" : String) =
      ((setKey (buildRedisKey "bob") "caterpillar" State.empty).cache
        (buildRedisKey "bob")).getD "" ∧
    ("dog" : String) = normalizeQuery "dog" ∧ ("dog" : String) ≠ "" ∧
    ((LogSearch (fun _ => "d") noFail "bob" "ua" "dog"
        (setKey (buildRedisKey "bob") "caterpillar" State.empty)).2 = .ok ∧
     ((LogSearch (fun _ => "d") noFail "bob" "ua" "dog"
        (setKey (buildRedisKey "bob") "caterpillar" State.empty)).1.db ≠
        (setKey (buildRedisKey "bob") "caterpillar" State.empty).db ↔
      (("caterpillar" : String) ≠ "" ∧ goHasPrefix "dog" "caterpillar" = false ∧
       goHasPrefix "caterpillar" "dog" = false)) ∧
     ((("caterpillar" : String) ≠ "" ∧ goHasPrefix "dog" "caterpillar" = false ∧
       goHasPrefix "caterpillar" "dog" = false) →
      ((LogSearch (fun _ => "d") noFail "bob" "ua" "dog"
          (setKey (buildRedisKey "bob") "caterpillar" State.empty)).1.db =
        (setKey (buildRedisKey "bob") "caterpillar" State.empty).db ++
          [⟨"bob", "caterpillar", if goTrimSpace "bob" = "" then generateAnonID (fun _ => "d") "ua" else ""⟩] ∧
       ("caterpillar" : String) ≠ "dog")) ∧
     (LogSearch (fun _ => "d") noFail "bob" "ua" "dog"
        (setKey (buildRedisKey "bob") "caterpillar" State.empty)).1.cache
        (buildRedisKey "bob") = some "dog") :=
  ⟨by decide, by decide, by decide, by decide,
   C1_reset_flush_rule (fun _ => "d") "bob" "ua" "dog"
     (setKey (buildRedisKey "bob") "caterpillar" State.empty)
     "bob" "caterpillar" "dog" (by decide) (by decide) (by decide) (by decide)⟩

/-- C6: when a reset is detected and the synchronous flush of the previous
head value fails, the DB error is propagated and neither the head nor the
buffer cache entry is updated (the state is returned unchanged), so an
identical retry sees the same reset, and with the DB back up it flushes
exactly the same previous head value. -/
theorem C6_flush_failure_preserves_state (sha : String → String) (u ua q : String)
    (s : State) (A hd n : String) (shf sbf : Bool)
    (hA : A = resolvedId sha u ua)
    (hhd : hd = (s.cache (buildRedisKey A)).getD "")
    (hn : n = normalizeQuery q)
    (hq : n ≠ "")
    (hr : resetCond hd n = true) :
    LogSearch sha ⟨false, true, shf, sbf⟩ u ua q s = (s, .dbErr) ∧
    (LogSearch sha noFail u ua q s).1.db =
      s.db ++ [⟨u, hd, if goTrimSpace u = "" then generateAnonID sha ua else ""⟩] := by
  subst hA hhd hn
  constructor
  · rw [LogSearch_eq sha ⟨false, true, shf, sbf⟩ u ua q s hq]
    simp [hr]
  · rw [LogSearch_eq sha noFail u ua q s hq]
    simp [noFail, hr, setKey]

theorem C6_flush_failure_preserves_state_witness :
    ("bob" : String) = resolvedId (fun _ => "d") "bob" "ua" ∧
    ("cat" : String) =
      ((setKey (buildRedisKey "bob") "cat" State.empty).cache (buildRedisKey "bob")).getD "" ∧
    ("dog" : String) = normalizeQuery "dog" ∧ ("dog" : String) ≠ "" ∧
    resetCond "cat" "dog" = true ∧
    (LogSearch (fun _ => "d") ⟨false, true, false, false⟩ "bob" "ua" "dog"
        (setKey (buildRedisKey "bob") "cat" State.empty) =
      (setKey (buildRedisKey "bob") "cat" State.empty, .dbErr) ∧
     (LogSearch (fun _ => "d") noFail "bob" "ua" "dog"
        (setKey (buildRedisKey "bob") "cat" State.empty)).1.db =
      (setKey (buildRedisKey "bob") "cat" State.empty).db ++
        [⟨"bob", "cat", if goTrimSpace "bob" = "" then generateAnonID (fun _ => "d") "ua" else ""⟩]) :=
  ⟨by decide, by decide, by decide, by decide, by decide,
   C6_flush_failure_preserves_state (fun _ => "d") "bob" "ua" "dog"
     (setKey (buildRedisKey "bob") "cat" State.empty) "bob" "cat" "dog"
     false false (by decide) (by decide) (by decide) (by decide) (by decide)⟩

/-- C7 counterexample: a failed head read with working cache writes makes
`LogSearch` return success and cache the query — the claim's promise that a
failed cache operation always surfaces an error and leaves the query uncached
is false on the code (the source discards the `Get` error). -/
theorem C7_counterexample_read_failure :
    (LogSearch (fun _ => "d") ⟨true, false, false, false⟩ "bob" "ua" "dog"
        (setKey (buildRedisKey "bob") "cat" State.empty)).2 = .ok ∧
    (LogSearch (fun _ => "d") ⟨true, false, false, false⟩ "bob" "ua" "dog"
        (setKey (buildRedisKey "bob") "cat" State.empty)).1.cache
        (buildRedisKey "bob") = some "dog" ∧
    (LogSearch (fun _ => "d") ⟨true, false, false, false⟩ "bob" "ua" "dog"
        (setKey (buildRedisKey "bob") "cat" State.empty)).1.cache
        ("search:buffer:" ++ "bob") = some "dog" := by
  refine ⟨by decide, by decide, by decide⟩

/-- C7 amended: a failed head read surfaces no error — it is treated as a
cache miss, the call succeeds and the query is cached in both entries; a
failed head or buffer write (with the DB up) surfaces the aggregated cache
error, but the companion successful write is not rolled back, each entry
ending at the new query exactly when its own write succeeded; and under every
failure plan the new query itself is never the text of a record inserted by
its own call. -/
theorem C7_cache_failure_behaviour (sha : String → String) (u ua q : String)
    (s : State) (n : String) (gf shf sbf : Bool)
    (hn : n = normalizeQuery q) (hq : n ≠ "") :
    (∀ df : Bool, LogSearch sha ⟨true, df, false, false⟩ u ua q s =
      (setKey ("search:buffer:" ++ resolvedId sha u ua) n
        (setKey (buildRedisKey (resolvedId sha u ua)) n s), .ok)) ∧
    ((shf || sbf) = true →
      ((LogSearch sha ⟨gf, false, shf, sbf⟩ u ua q s).2 = .cacheErr ∧
       (LogSearch sha ⟨gf, false, shf, sbf⟩ u ua q s).1.cache
           (buildRedisKey (resolvedId sha u ua)) =
         (if shf then s.cache (buildRedisKey (resolvedId sha u ua)) else some n) ∧
       (LogSearch sha ⟨gf, false, shf, sbf⟩ u ua q s).1.cache
           ("search:buffer:" ++ resolvedId sha u ua) =
         (if sbf then s.cache ("search:buffer:" ++ resolvedId sha u ua) else some n))) ∧
    (∀ fp : FailurePlan, ∀ e ∈ (LogSearch sha fp u ua q s).1.db, e ∈ s.db ∨ e.Query ≠ n) := by
  subst hn
  have hq2 := hq
  refine ⟨?_, ?_, ?_⟩
  · intro df
    rw [LogSearch_eq sha ⟨true, df, false, false⟩ u ua q s hq]
    have hz : resetCond "" (normalizeQuery q) = false := by simp [resetCond]
    simp [hz]
  · intro hsf
    rw [LogSearch_eq sha ⟨gf, false, shf, sbf⟩ u ua q s hq]
    have hne := headKey_ne_bufferKey (resolvedId sha u ua) (resolvedId sha u ua)
    cases gf
    case true =>
      have hz : resetCond "" (normalizeQuery q) = false := by simp [resetCond]
      cases shf <;> cases sbf <;> simp_all [setKey, hne, Ne.symm hne]
    case false =>
      by_cases hr : resetCond ((s.cache (buildRedisKey (resolvedId sha u ua))).getD "")
          (normalizeQuery q) = true
      · cases shf <;> cases sbf <;> simp_all [setKey, hne, Ne.symm hne]
      · rw [Bool.not_eq_true] at hr
        cases shf <;> cases sbf <;> simp_all [setKey, hne, Ne.symm hne]
  · intro fp e he
    obtain ⟨gf2, df2, shf2, sbf2⟩ := fp
    rw [LogSearch_eq sha ⟨gf2, df2, shf2, sbf2⟩ u ua q s hq] at he
    cases gf2
    case true =>
      have hz : resetCond "" (normalizeQuery q) = false := by simp [resetCond]
      cases df2 <;> cases shf2 <;> cases sbf2 <;> simp [hz, setKey] at he <;> exact Or.inl he
    case false =>
      by_cases hr : resetCond ((s.cache (buildRedisKey (resolvedId sha u ua))).getD "")
          (normalizeQuery q) = true
      · cases df2 with
        | true =>
          cases shf2 <;> cases sbf2 <;> simp [hr, setKey] at he <;> exact Or.inl he
        | false =>
          cases shf2 <;> cases sbf2 <;> simp [hr, setKey] at he <;>
            (rcases he with he | he
             · exact Or.inl he
             · exact Or.inr (by rw [he]; exact resetCond_self_ne _ _ hr))
      · rw [Bool.not_eq_true] at hr
        cases df2 <;> cases shf2 <;> cases sbf2 <;> simp [hr, setKey] at he <;> exact Or.inl he

theorem C7_cache_failure_behaviour_witness :
    ("dog" : String) = normalizeQuery "dog" ∧ ("dog" : String) ≠ "" ∧
    ((LogSearch (fun _ => "d") ⟨false, false, true, false⟩ "bob" "ua" "dog"
        State.empty).2 = .cacheErr ∧
     (LogSearch (fun _ => "d") ⟨false, false, true, false⟩ "bob" "ua" "dog"
        State.empty).1.cache (buildRedisKey (resolvedId (fun _ => "d") "bob" "ua")) =
       (if true then State.empty.cache (buildRedisKey (resolvedId (fun _ => "d") "bob" "ua"))
        else some "dog") ∧
     (LogSearch (fun _ => "d") ⟨false, false, true, false⟩ "bob" "ua" "dog"
        State.empty).1.cache ("search:buffer:" ++ resolvedId (fun _ => "d") "bob" "ua") =
       (if false then
          State.empty.cache ("search:buffer:" ++ resolvedId (fun _ => "d") "bob" "ua")
        else some "dog")) :=
  ⟨by decide, by decide,
   (C7_cache_failure_behaviour (fun _ => "d") "bob" "ua" "dog" State.empty "dog"
      false true false (by decide) (by decide)).2.1 (by decide)⟩

/-- Any row a `LogSearch` call adds to the database carries the raw caller
userID in its user field and, exactly in the anonymous case, the derived anon
ID in its anon field. -/
lemma LogSearch_new_entry (sha : String → String) (fp : FailurePlan) (u ua q : String)
    (s : State) (e : SearchEntry) (he : e ∈ (LogSearch sha fp u ua q s).1.db) :
    e ∈ s.db ∨
    (e.UserID = u ∧
     e.AnonID = (if goTrimSpace u = "" then generateAnonID sha ua else "")) := by
  by_cases hq : normalizeQuery q = ""
  · left; simpa [LogSearch, hq] using he
  rw [LogSearch_eq sha fp u ua q s hq] at he
  obtain ⟨gf, df, shf, sbf⟩ := fp
  cases gf with
  | true =>
    have hz : resetCond "" (normalizeQuery q) = false := by simp [resetCond]
    cases df <;> cases shf <;> cases sbf <;> simp [hz, setKey] at he <;> exact Or.inl he
  | false =>
    by_cases hr : resetCond ((s.cache (buildRedisKey (resolvedId sha u ua))).getD "")
        (normalizeQuery q) = true
    · cases df with
      | true =>
        cases shf <;> cases sbf <;> simp [hr, setKey] at he <;> exact Or.inl he
      | false =>
        cases shf <;> cases sbf <;> simp [hr, setKey] at he <;>
          (rcases he with he | he
           · exact Or.inl he
           · exact Or.inr (by rw [he]; exact ⟨rfl, rfl⟩))
    · rw [Bool.not_eq_true] at hr
      cases df <;> cases shf <;> cases sbf <;> simp [hr, setKey] at he <;> exact Or.inl he

/-- `LogSearch` writes no cache key other than the head and buffer keys of
the identity it resolved, whatever the failure plan. -/
lemma LogSearch_cache_frame (sha : String → String) (fp : FailurePlan) (u ua q : String)
    (s : State) (k : String)
    (hk1 : k ≠ buildRedisKey (resolvedId sha u ua))
    (hk2 : k ≠ "search:buffer:" ++ resolvedId sha u ua) :
    (LogSearch sha fp u ua q s).1.cache k = s.cache k := by
  by_cases hq : normalizeQuery q = ""
  · simp [LogSearch, hq]
  rw [LogSearch_eq sha fp u ua q s hq]
  obtain ⟨gf, df, shf, sbf⟩ := fp
  cases gf with
  | true =>
    have hz : resetCond "" (normalizeQuery q) = false := by simp [resetCond]
    cases df <;> cases shf <;> cases sbf <;> simp [hz, setKey, hk1, hk2]
  | false =>
    by_cases hr : resetCond ((s.cache (buildRedisKey (resolvedId sha u ua))).getD "")
        (normalizeQuery q) = true
    · cases df <;> cases shf <;> cases sbf <;> simp [hr, setKey, hk1, hk2]
    · rw [Bool.not_eq_true] at hr
      cases df <;> cases shf <;> cases sbf <;> simp [hr, setKey, hk1, hk2]

/-- C10: `LogSearch` trims the userID only for the anonymous/authenticated
decision: a whitespace-only userID resolves to the user-agent-derived anon
ID, a non-blank userID is used verbatim (untrimmed) as the cache-key
identity, so two non-blank userIDs differing only in surrounding whitespace
key distinct cache entries; the resolved identity is what the failure-free
call's head entry is written under. -/
theorem C10_trim_only_for_decision (sha : String → String) (u u2 ua ua2 q : String)
    (s : State) (hq : normalizeQuery q ≠ "") :
    (goTrimSpace u = "" → resolvedId sha u ua = generateAnonID sha ua) ∧
    (goTrimSpace u ≠ "" → resolvedId sha u ua = u) ∧
    (goTrimSpace u ≠ "" → goTrimSpace u2 ≠ "" → u ≠ u2 →
      buildRedisKey (resolvedId sha u ua) ≠ buildRedisKey (resolvedId sha u2 ua2)) ∧
    (LogSearch sha noFail u ua q s).1.cache (buildRedisKey (resolvedId sha u ua)) =
      some (normalizeQuery q) := by
  refine ⟨fun h => by simp [resolvedId, h], fun h => by simp [resolvedId, h], ?_, ?_⟩
  · intro h1 h2 hne hk
    rw [resolvedId, if_neg h1, resolvedId, if_neg h2] at hk
    exact hne (buildRedisKey_inj hk)
  · rw [LogSearch_eq sha noFail u ua q s hq]
    by_cases hr : resetCond ((s.cache (buildRedisKey (resolvedId sha u ua))).getD "")
        (normalizeQuery q) = true
    · simp [noFail, hr, setKey, headKey_ne_bufferKey (resolvedId sha u ua) (resolvedId sha u ua)]
    · rw [Bool.not_eq_true] at hr
      simp [noFail, hr, setKey, headKey_ne_bufferKey (resolvedId sha u ua) (resolvedId sha u ua)]

theorem C10_trim_only_for_decision_witness :
    normalizeQuery "dog" ≠ "" ∧
    (goTrimSpace " bob " ≠ "" → resolvedId (fun _ => "d") " bob " "ua" = " bob ") ∧
    (goTrimSpace " bob " ≠ "" → goTrimSpace "bob" ≠ "" → " bob " ≠ "bob" →
      buildRedisKey (resolvedId (fun _ => "d") " bob " "ua") ≠
        buildRedisKey (resolvedId (fun _ => "d") "bob" "ua")) ∧
    (goTrimSpace "   " = "" →
      resolvedId (fun _ => "d") "   " "ua" = generateAnonID (fun _ => "d") "ua") ∧
    (LogSearch (fun _ => "d") noFail " bob " "ua" "dog" State.empty).1.cache
      (buildRedisKey (resolvedId (fun _ => "d") " bob " "ua")) = some (normalizeQuery "dog") :=
  ⟨by decide,
   (C10_trim_only_for_decision (fun _ => "d") " bob " "bob" "ua" "ua" "dog"
      State.empty (by decide)).2.1,
   (C10_trim_only_for_decision (fun _ => "d") " bob " "bob" "ua" "ua" "dog"
      State.empty (by decide)).2.2.1,
   (C10_trim_only_for_decision (fun _ => "d") "   " "bob" "ua" "ua" "dog"
      State.empty (by decide)).1,
   (C10_trim_only_for_decision (fun _ => "d") " bob " "bob" "ua" "ua" "dog"
      State.empty (by decide)).2.2.2⟩

/-- C9: a `LogSearch` call touches only the head and buffer cache keys of
its own resolved identity A — both keys of any distinct resolved identity B
are unchanged — and every record it inserts is attributed to A (user field
for authenticated calls, anon field for anonymous ones) and never carries B
in either identity field. -/
theorem C9_multi_identity_isolation (sha : String → String) (fp : FailurePlan)
    (u ua q u2 ua2 : String) (s : State) (A B : String)
    (hA : A = resolvedId sha u ua) (hB : B = resolvedId sha u2 ua2) (hAB : A ≠ B) :
    (LogSearch sha fp u ua q s).1.cache (buildRedisKey B) = s.cache (buildRedisKey B) ∧
    (LogSearch sha fp u ua q s).1.cache ("search:buffer:" ++ B) =
      s.cache ("search:buffer:" ++ B) ∧
    (∀ e ∈ (LogSearch sha fp u ua q s).1.db, e ∈ s.db ∨
      (((goTrimSpace u ≠ "" ∧ e.UserID = A ∧ e.AnonID = "") ∨
        (goTrimSpace u = "" ∧ e.AnonID = A ∧ e.UserID = u)) ∧
       e.UserID ≠ B ∧ e.AnonID ≠ B)) := by
  subst hA hB
  refine ⟨?_, ?_, ?_⟩
  · exact LogSearch_cache_frame sha fp u ua q s _
      (fun h => hAB (buildRedisKey_inj h).symm)
      (headKey_ne_bufferKey (resolvedId sha u2 ua2) (resolvedId sha u ua))
  · exact LogSearch_cache_frame sha fp u ua q s _
      (Ne.symm (headKey_ne_bufferKey (resolvedId sha u ua) (resolvedId sha u2 ua2)))
      (fun h => hAB (bufferKey_inj h).symm)
  · intro e he
    rcases LogSearch_new_entry sha fp u ua q s e he with h | ⟨hu, han⟩
    · exact Or.inl h
    right
    by_cases hA2 : goTrimSpace u = ""
    · rw [if_pos hA2] at han
      have hresA : resolvedId sha u ua = generateAnonID sha ua := by simp [resolvedId, hA2]
      refine ⟨Or.inr ⟨hA2, by rw [han, hresA], hu⟩, ?_, ?_⟩
      · rw [hu]
        intro hcontra
        exact goTrimSpace_resolvedId_ne sha u2 ua2 (by rw [← hcontra, hA2])
      · rw [han, ← hresA]
        exact hAB
    · rw [if_neg hA2] at han
      have hresA : resolvedId sha u ua = u := by simp [resolvedId, hA2]
      refine ⟨Or.inl ⟨hA2, by rw [hu, hresA], han⟩, ?_, ?_⟩
      · rw [hu, ← hresA]
        exact hAB
      · rw [han]
        exact (resolvedId_ne_empty sha u2 ua2).symm

theorem C9_multi_identity_isolation_witness :
    ("alice" : String) = resolvedId (fun _ => "d") "alice" "ua" ∧
    ("bob" : String) = resolvedId (fun _ => "d") "bob" "ua" ∧
    ("alice" : String) ≠ "bob" ∧
    ((LogSearch (fun _ => "d") noFail "alice" "ua" "dog"
        (setKey (buildRedisKey "bob") "cat" State.empty)).1.cache (buildRedisKey "bob") =
      (setKey (buildRedisKey "bob") "cat" State.empty).cache (buildRedisKey "bob") ∧
     (LogSearch (fun _ => "d") noFail "alice" "ua" "dog"
        (setKey (buildRedisKey "bob") "cat" State.empty)).1.cache ("search:buffer:" ++ "bob") =
      (setKey (buildRedisKey "bob") "cat" State.empty).cache ("search:buffer:" ++ "bob")) :=
  ⟨by decide, by decide, by decide,
   (C9_multi_identity_isolation (fun _ => "d") noFail "alice" "ua" "dog" "bob" "ua"
      (setKey (buildRedisKey "bob") "cat" State.empty) "alice" "bob"
      (by decide) (by decide) (by decide)).1,
   (C9_multi_identity_isolation (fun _ => "d") noFail "alice" "ua" "dog" "bob" "ua"
      (setKey (buildRedisKey "bob") "cat" State.empty) "alice" "bob"
      (by decide) (by decide) (by decide)).2.1⟩

/-- Pairwise bidirectional-prefix relation along a list: each element and its
successor stand in a prefix relation in one direction or the other (a typing
burst of extensions and contractions). -/
def prefixChainB : List String → Bool
  | a :: b :: rest => (goHasPrefix b a || goHasPrefix a b) && prefixChainB (b :: rest)
  | _ => true

lemma resetCond_of_rel (p n : String)
    (h : goHasPrefix n p = true ∨ goHasPrefix p n = true) :
    resetCond p n = false := by
  rcases h with h | h <;> simp [resetCond, h]

/-- One failure-free `LogSearch` call that detects no reset: the state is the
input with the two cache entries set to the normalized query. -/
lemma LogSearch_noFail_extend (sha : String → String) (u ua q : String) (s : State)
    (hq : normalizeQuery q ≠ "")
    (hrel : resetCond ((s.cache (buildRedisKey (resolvedId sha u ua))).getD "")
              (normalizeQuery q) = false) :
    (LogSearch sha noFail u ua q s).1 =
      setKey ("search:buffer:" ++ resolvedId sha u ua) (normalizeQuery q)
        (setKey (buildRedisKey (resolvedId sha u ua)) (normalizeQuery q) s) := by
  rw [LogSearch_eq sha noFail u ua q s hq]
  simp [noFail, hrel]

/-- Inductive core of C2: from a state whose head and buffer both hold the
non-empty previous query `p`, a chain of prefix-related non-empty queries
never writes a record and ends with both entries at the last query. -/
lemma runAll_chain (sha : String → String) (u ua : String) (qs : List String) :
    ∀ (s : State) (p : String),
      p ≠ "" →
      s.cache (buildRedisKey (resolvedId sha u ua)) = some p →
      s.cache ("search:buffer:" ++ resolvedId sha u ua) = some p →
      prefixChainB (p :: qs.map normalizeQuery) = true →
      (∀ q ∈ qs, normalizeQuery q ≠ "") →
      (runAll sha u ua qs s).db = s.db ∧
      (runAll sha u ua qs s).cache (buildRedisKey (resolvedId sha u ua)) =
        some ((qs.map normalizeQuery).getLastD p) ∧
      (runAll sha u ua qs s).cache ("search:buffer:" ++ resolvedId sha u ua) =
        some ((qs.map normalizeQuery).getLastD p) := by
  induction qs with
  | nil =>
    intro s p hp hh hb _ _
    exact ⟨rfl, by simpa [runAll] using hh, by simpa [runAll] using hb⟩
  | cons q rest ih =>
    intro s p hp hh hb hch hne
    have hq : normalizeQuery q ≠ "" := hne q (by simp)
    have hch2 := hch
    simp only [List.map_cons, prefixChainB, Bool.and_eq_true, Bool.or_eq_true] at hch2
    have hrel : resetCond p (normalizeQuery q) = false :=
      resetCond_of_rel p (normalizeQuery q) hch2.1
    have hstep := LogSearch_noFail_extend sha u ua q s hq (by rw [hh]; simpa using hrel)
    have hrun : runAll sha u ua (q :: rest) s =
        runAll sha u ua rest ((LogSearch sha noFail u ua q s).1) := by
      simp [runAll]
    have hne2 := headKey_ne_bufferKey (resolvedId sha u ua) (resolvedId sha u ua)
    have hh2 : (LogSearch sha noFail u ua q s).1.cache
        (buildRedisKey (resolvedId sha u ua)) = some (normalizeQuery q) := by
      rw [hstep]; simp [setKey, hne2]
    have hb2 : (LogSearch sha noFail u ua q s).1.cache
        ("search:buffer:" ++ resolvedId sha u ua) = some (normalizeQuery q) := by
      rw [hstep]; simp [setKey]
    have hdb2 : (LogSearch sha noFail u ua q s).1.db = s.db := by
      rw [hstep]; simp [setKey]
    obtain ⟨ihdb, ihh, ihb⟩ := ih ((LogSearch sha noFail u ua q s).1) (normalizeQuery q)
      hq hh2 hb2 (by simpa using hch2.2) (fun q2 hq2 => hne q2 (by simp [hq2]))
    refine ⟨?_, ?_, ?_⟩
    · rw [hrun, ihdb, hdb2]
    · rw [hrun, ihh, List.map_cons, List.getLastD_cons]
    · rw [hrun, ihb, List.map_cons, List.getLastD_cons]

/-- C2: a burst of `LogSearch` calls for one identity, starting from an
absent head entry, in which each successive non-empty normalized query is a
prefix-extension or contraction of the previous one, writes no durable
record, and afterwards both the head and the buffer entry hold exactly the
last normalized query of the burst. -/
theorem C2_prefix_burst_no_flush (sha : String → String) (u ua : String)
    (q0 : String) (rest : List String) (s : State)
    (h0 : s.cache (buildRedisKey (resolvedId sha u ua)) = none)
    (hne : ∀ q ∈ q0 :: rest, normalizeQuery q ≠ "")
    (hch : prefixChainB ((q0 :: rest).map normalizeQuery) = true) :
    (runAll sha u ua (q0 :: rest) s).db = s.db ∧
    (runAll sha u ua (q0 :: rest) s).cache (buildRedisKey (resolvedId sha u ua)) =
      some (((q0 :: rest).map normalizeQuery).getLastD "") ∧
    (runAll sha u ua (q0 :: rest) s).cache ("search:buffer:" ++ resolvedId sha u ua) =
      some (((q0 :: rest).map normalizeQuery).getLastD "") := by
  have hq0 : normalizeQuery q0 ≠ "" := hne q0 (by simp)
  have hrel : resetCond ((s.cache (buildRedisKey (resolvedId sha u ua))).getD "")
      (normalizeQuery q0) = false := by
    rw [h0]
    simp [resetCond]
  have hstep := LogSearch_noFail_extend sha u ua q0 s hq0 hrel
  have hrun : runAll sha u ua (q0 :: rest) s =
      runAll sha u ua rest ((LogSearch sha noFail u ua q0 s).1) := by
    simp [runAll]
  have hne2 := headKey_ne_bufferKey (resolvedId sha u ua) (resolvedId sha u ua)
  have hh2 : (LogSearch sha noFail u ua q0 s).1.cache
      (buildRedisKey (resolvedId sha u ua)) = some (normalizeQuery q0) := by
    rw [hstep]; simp [setKey, hne2]
  have hb2 : (LogSearch sha noFail u ua q0 s).1.cache
      ("search:buffer:" ++ resolvedId sha u ua) = some (normalizeQuery q0) := by
    rw [hstep]; simp [setKey]
  have hdb2 : (LogSearch sha noFail u ua q0 s).1.db = s.db := by
    rw [hstep]; simp [setKey]
  obtain ⟨ihdb, ihh, ihb⟩ := runAll_chain sha u ua rest ((LogSearch sha noFail u ua q0 s).1)
    (normalizeQuery q0) hq0 hh2 hb2 (by simpa using hch)
    (fun q2 hq2 => hne q2 (by simp [hq2]))
  refine ⟨?_, ?_, ?_⟩
  · rw [hrun, ihdb, hdb2]
  · rw [hrun, ihh, List.map_cons, List.getLastD_cons]
  · rw [hrun, ihb, List.map_cons, List.getLastD_cons]

theorem C2_prefix_burst_no_flush_witness :
    State.empty.cache (buildRedisKey (resolvedId (fun _ => "d") "bob" "ua")) = none ∧
    (∀ q ∈ ["t", "te", "tes", "test", "tes"], normalizeQuery q ≠ "") ∧
    prefixChainB (["t", "te", "tes", "test", "tes"].map normalizeQuery) = true ∧
    ((runAll (fun _ => "d") "bob" "ua" ["t", "te", "tes", "test", "tes"] State.empty).db =
      State.empty.db ∧
     (runAll (fun _ => "d") "bob" "ua" ["t", "te", "tes", "test", "tes"]
        State.empty).cache (buildRedisKey (resolvedId (fun _ => "d") "bob" "ua")) =
      some ((["t", "te", "tes", "test", "tes"].map normalizeQuery).getLastD "") ∧
     (runAll (fun _ => "d") "bob" "ua" ["t", "te", "tes", "test", "tes"]
        State.empty).cache ("search:buffer:" ++ resolvedId (fun _ => "d") "bob" "ua") =
      some ((["t", "te", "tes", "test", "tes"].map normalizeQuery).getLastD "")) :=
  ⟨by decide, by decide, by decide,
   C2_prefix_burst_no_flush (fun _ => "d") "bob" "ua" "t" ["te", "tes", "test", "tes"]
     State.empty (by decide) (by decide) (by decide)⟩

/-- C3 counterexample: when the buffer key exists holding the empty string,
the listener performs no durable write — but it is not the claimed
"no other mutation": the buffer key is deleted (the empty-query write
no-ops successfully, so the `Del` step still runs). -/
theorem C3_counterexample_empty_buffer_deleted :
    (setKey "search:buffer:u" "" State.empty).cache ("search:buffer:" ++ "u") = some "" ∧
    (handleExpiredKey lpNoFail ("search:last:" ++ "u")
       (setKey "search:buffer:u" "" State.empty)).db =
      (setKey "search:buffer:u" "" State.empty).db ∧
    (handleExpiredKey lpNoFail ("search:last:" ++ "u")
       (setKey "search:buffer:u" "" State.empty)).cache ("search:buffer:" ++ "u") = none := by
  refine ⟨by decide, by decide, by decide⟩

/-- C3 amended: for a head-namespace expiry notification, a failed buffer
read (including an absent key) is a strict no-op; a present but empty buffer
value writes nothing durable yet still deletes the buffer key; a non-empty
buffer value is written as exactly one record — on write failure the state
(buffer included) is left intact, on success the buffer key is deleted, after
which a second expiry cycle with no new input changes nothing. -/
theorem C3_expiry_listener_behaviour (df dl : Bool) (u v : String) (s : State)
    (hv : v ≠ "") :
    (∀ df2 dl2, handleExpiredKey ⟨true, df2, dl2⟩ ("search:last:" ++ u) s = s) ∧
    (s.cache ("search:buffer:" ++ u) = none →
      ∀ df2 dl2, handleExpiredKey ⟨false, df2, dl2⟩ ("search:last:" ++ u) s = s) ∧
    (s.cache ("search:buffer:" ++ u) = some "" →
      (handleExpiredKey ⟨false, df, false⟩ ("search:last:" ++ u) s).db = s.db ∧
      (handleExpiredKey ⟨false, df, false⟩ ("search:last:" ++ u) s).cache
        ("search:buffer:" ++ u) = none) ∧
    (s.cache ("search:buffer:" ++ u) = some v →
      (handleExpiredKey ⟨false, true, dl⟩ ("search:last:" ++ u) s = s ∧
       (handleExpiredKey ⟨false, false, false⟩ ("search:last:" ++ u) s).db =
         s.db ++ [if goHasPrefix u "anon" then ⟨"", v, u⟩ else ⟨u, v, ""⟩] ∧
       (handleExpiredKey ⟨false, false, false⟩ ("search:last:" ++ u) s).cache
         ("search:buffer:" ++ u) = none ∧
       ∀ lp2 : ListenerPlan,
         handleExpiredKey lp2 ("search:last:" ++ u)
           (handleExpiredKey ⟨false, false, false⟩ ("search:last:" ++ u) s) =
         handleExpiredKey ⟨false, false, false⟩ ("search:last:" ++ u) s)) := by
  refine ⟨?_, ?_, ?_, ?_⟩
  · intro df2 dl2
    rw [handleExpiredKey_eq ⟨true, df2, dl2⟩ u s]
    simp
  · intro hbv df2 dl2
    rw [handleExpiredKey_eq ⟨false, df2, dl2⟩ u s]
    simp [hbv]
  · intro hbv
    rw [handleExpiredKey_eq ⟨false, df, false⟩ u s]
    by_cases hAn : goHasPrefix u "anon" = true <;>
      simp [hbv, hAn, writeSearch, delKey]
  · intro hbv
    have hwrite : ∀ dl2 : Bool, handleExpiredKey ⟨false, true, dl2⟩ ("search:last:" ++ u) s = s := by
      intro dl2
      rw [handleExpiredKey_eq ⟨false, true, dl2⟩ u s]
      by_cases hAn : goHasPrefix u "anon" = true <;>
        simp [hbv, hAn, writeSearch, hv]
    have hdel : (handleExpiredKey ⟨false, false, false⟩ ("search:last:" ++ u) s).cache
        ("search:buffer:" ++ u) = none := by
      rw [handleExpiredKey_eq ⟨false, false, false⟩ u s]
      by_cases hAn : goHasPrefix u "anon" = true <;>
        simp [hbv, hAn, writeSearch, hv, delKey]
    refine ⟨hwrite dl, ?_, hdel, ?_⟩
    · rw [handleExpiredKey_eq ⟨false, false, false⟩ u s]
      by_cases hAn : goHasPrefix u "anon" = true <;>
        simp [hbv, hAn, writeSearch, hv, delKey]
    · intro lp2
      obtain ⟨g2, d2, l2⟩ := lp2
      rw [handleExpiredKey_eq ⟨g2, d2, l2⟩ u]
      cases g2 <;> simp [hdel]

theorem C3_expiry_listener_behaviour_witness :
    ("hello" : String) ≠ "" ∧
    (setKey "search:buffer:u" "hello" State.empty).cache ("search:buffer:" ++ "u") =
      some "hello" ∧
    ((handleExpiredKey ⟨false, true, false⟩ ("search:last:" ++ "u")
        (setKey "search:buffer:u" "hello" State.empty) =
      setKey "search:buffer:u" "hello" State.empty) ∧
     (handleExpiredKey ⟨false, false, false⟩ ("search:last:" ++ "u")
        (setKey "search:buffer:u" "hello" State.empty)).db =
      (setKey "search:buffer:u" "hello" State.empty).db ++
        [if goHasPrefix "u" "anon" then ⟨"", "hello", "u"⟩ else ⟨"u", "hello", ""⟩] ∧
     (handleExpiredKey ⟨false, false, false⟩ ("search:last:" ++ "u")
        (setKey "search:buffer:u" "hello" State.empty)).cache ("search:buffer:" ++ "u") =
       none ∧
     ∀ lp2 : ListenerPlan,
       handleExpiredKey lp2 ("search:last:" ++ "u")
         (handleExpiredKey ⟨false, false, false⟩ ("search:last:" ++ "u")
           (setKey "search:buffer:u" "hello" State.empty)) =
       handleExpiredKey ⟨false, false, false⟩ ("search:last:" ++ "u")
         (setKey "search:buffer:u" "hello" State.empty)) :=
  ⟨by decide, by decide,
   (C3_expiry_listener_behaviour false false "u" "hello"
      (setKey "search:buffer:u" "hello" State.empty) (by decide)).2.2.2 (by decide)⟩

/-- Modelled from the spec: the anonymous-key format of section 4.1 — the
literal marker `anon` followed by the hex encoding of a SHA-256 digest,
i.e. 64 lowercase hexadecimal characters.  This definition follows the
spec's words and exists to be compared with the code's classification. -/
def specAnonKeyFormat (id : String) : Bool :=
  goHasPrefix id "anon" && (id.data.drop 4).length == 64 &&
    (id.data.drop 4).all (fun c => c.isDigit || ('a' ≤ c && c ≤ 'f'))

/-- C5 counterexample: the identity `anonX` — e.g. an authenticated user
identifier — does not have the spec's anonymous-key format (its suffix is not
a 64-character hex digest), yet the listener attributes it to the anonymous
identity field of the record it writes: the code only tests the literal
`anon` prefix. -/
theorem C5_counterexample_prefix_only_check :
    specAnonKeyFormat "anonX" = false ∧
    (handleExpiredKey lpNoFail ("search:last:" ++ "anonX")
       (setKey "search:buffer:anonX" "q" State.empty)).db =
      [⟨"", "q", "anonX"⟩] := by
  refine ⟨by decide, by decide⟩

/-- C5 amended: the listener classifies an expired identity as anonymous iff
it starts with the literal marker `anon` — a prefix test only, not the full
hash format of the Identity Resolver.  Every Identity-Resolver anonymous ID
is so classified, but so is any other identifier beginning with `anon`. -/
theorem C5_anon_classification_by_marker (u v : String) (s : State) (hv : v ≠ "")
    (hbuf : s.cache ("search:buffer:" ++ u) = some v) :
    ((handleExpiredKey lpNoFail ("search:last:" ++ u) s).db =
      s.db ++ [if goHasPrefix u "anon" then ⟨"", v, u⟩ else ⟨u, v, ""⟩]) ∧
    (∀ sha256hex2 : String → String, ∀ ua : String,
      goHasPrefix (generateAnonID sha256hex2 ua) "anon" = true) := by
  constructor
  · rw [handleExpiredKey_eq lpNoFail u s]
    by_cases hAn : goHasPrefix u "anon" = true <;>
      simp [lpNoFail, hbuf, hAn, writeSearch, hv, delKey]
  · intro sha2 ua
    exact generateAnonID_marker sha2 ua

theorem C5_anon_classification_by_marker_witness :
    ("q" : String) ≠ "" ∧
    (setKey "search:buffer:anonbob" "q" State.empty).cache
      ("search:buffer:" ++ "anonbob") = some "q" ∧
    ((handleExpiredKey lpNoFail ("search:last:" ++ "anonbob")
        (setKey "search:buffer:anonbob" "q" State.empty)).db =
      (setKey "search:buffer:anonbob" "q" State.empty).db ++
        [if goHasPrefix "anonbob" "anon" then ⟨"", "q", "anonbob"⟩
         else ⟨"anonbob", "q", ""⟩] ∧
     ∀ sha256hex2 : String → String, ∀ ua : String,
       goHasPrefix (generateAnonID sha256hex2 ua) "anon" = true) :=
  ⟨by decide, by decide,
   C5_anon_classification_by_marker "anonbob" "q"
     (setKey "search:buffer:anonbob" "q" State.empty) (by decide) (by decide)⟩

/-- C4 counterexample: a caller-supplied userID of one space is treated as
anonymous (it trims to empty), but the reset-flush record stores the raw
userID verbatim next to the generated anon ID: both identity fields of the
persisted record are non-empty, contradicting mutual exclusivity. -/
theorem C4_counterexample_whitespace_userid :
    goTrimSpace " " = "" ∧ (" " : String) ≠ "" ∧
    (LogSearch (fun _ => "d") noFail " " "ua" "dog"
       (setKey (buildRedisKey (generateAnonID (fun _ => "d") "ua")) "cat"
         State.empty)).1.db =
      [⟨" ", "cat", generateAnonID (fun _ => "d") "ua"⟩] ∧
    generateAnonID (fun _ => "d") "ua" ≠ "" := by
  refine ⟨by decide, by decide, by decide, by decide⟩

/-- Exactly one of the two identity fields of a record is populated. -/
def exclusiveIdentity (e : SearchEntry) : Prop :=
  (e.UserID ≠ "" ∧ e.AnonID = "") ∨ (e.UserID = "" ∧ e.AnonID ≠ "")

lemma generateAnonID_ne_empty (sha : String → String) (ua : String) :
    generateAnonID sha ua ≠ "" := by
  intro h
  have h2 := congrArg String.data h
  simp [generateAnonID, String.data_append] at h2

/-- C4 amended: every record written by either path has exactly one identity
field populated, with one exception forced by the code: a reset flush for a
caller whose userID is non-empty but consists only of whitespace records that
raw userID in the user field together with the generated anon ID.  The
listener path keeps exclusivity whenever the identity extracted from the
expired key is non-empty. -/
theorem C4_identity_field_exclusivity (sha : String → String) (fp : FailurePlan)
    (u ua q : String) (s : State) (lp : ListenerPlan) (u2 : String) (s2 : State)
    (hu2 : u2 ≠ "") :
    (∀ e ∈ (LogSearch sha fp u ua q s).1.db, e ∈ s.db ∨ exclusiveIdentity e ∨
      (goTrimSpace u = "" ∧ u ≠ "" ∧ e.UserID = u ∧ e.AnonID = generateAnonID sha ua)) ∧
    (∀ e ∈ (handleExpiredKey lp ("search:last:" ++ u2) s2).db,
      e ∈ s2.db ∨ exclusiveIdentity e) := by
  constructor
  · intro e he
    rcases LogSearch_new_entry sha fp u ua q s e he with h | ⟨hu, han⟩
    · exact Or.inl h
    by_cases hA : goTrimSpace u = ""
    · rw [if_pos hA] at han
      by_cases hue : u = ""
      · exact Or.inr (Or.inl (Or.inr ⟨by rw [hu, hue],
          by rw [han]; exact generateAnonID_ne_empty sha ua⟩))
      · exact Or.inr (Or.inr ⟨hA, hue, hu, han⟩)
    · rw [if_neg hA] at han
      have hune : u ≠ "" := fun h => hA (by rw [h, goTrimSpace_empty])
      exact Or.inr (Or.inl (Or.inl ⟨by rw [hu]; exact hune, han⟩))
  · intro e he
    rw [handleExpiredKey_eq lp u2 s2] at he
    obtain ⟨g2, d2, l2⟩ := lp
    cases g2 with
    | true => exact Or.inl (by simpa using he)
    | false =>
      cases hbv : s2.cache ("search:buffer:" ++ u2) with
      | none => simp [hbv] at he; exact Or.inl he
      | some v =>
        by_cases hveq : v = ""
        · subst hveq
          by_cases hAn : goHasPrefix u2 "anon" = true <;> cases l2 <;>
            simp [hbv, hAn, writeSearch, delKey] at he <;> exact Or.inl he
        · cases d2 with
          | true =>
            by_cases hAn : goHasPrefix u2 "anon" = true <;>
              simp [hbv, hAn, writeSearch, hveq] at he <;> exact Or.inl he
          | false =>
            by_cases hAn : goHasPrefix u2 "anon" = true <;>
              cases l2 <;>
              simp [hbv, hAn, writeSearch, hveq, delKey] at he <;>
              (rcases he with he | he
               · exact Or.inl he
               · refine Or.inr ?_
                 rw [he]
                 first
                 | exact Or.inr ⟨rfl, hu2⟩
                 | exact Or.inl ⟨hu2, rfl⟩)

theorem C4_identity_field_exclusivity_witness :
    ("bob" : String) ≠ "" ∧
    ((∀ e ∈ (LogSearch (fun _ => "d") noFail "alice" "ua" "dog"
        (setKey (buildRedisKey "alice") "cat" State.empty)).1.db,
      e ∈ (setKey (buildRedisKey "alice") "cat" State.empty).db ∨ exclusiveIdentity e ∨
      (goTrimSpace "alice" = "" ∧ ("alice" : String) ≠ "" ∧ e.UserID = "alice" ∧
       e.AnonID = generateAnonID (fun _ => "d") "ua")) ∧
     (∀ e ∈ (handleExpiredKey lpNoFail ("search:last:" ++ "bob")
        (setKey "search:buffer:bob" "hello" State.empty)).db,
      e ∈ (setKey "search:buffer:bob" "hello" State.empty).db ∨ exclusiveIdentity e)) :=
  ⟨by decide,
   C4_identity_field_exclusivity (fun _ => "d") noFail "alice" "ua" "dog"
     (setKey (buildRedisKey "alice") "cat" State.empty) lpNoFail "bob"
     (setKey "search:buffer:bob" "hello" State.empty) (by decide)⟩

end SearchLogger
